import Mathlib

/-!
Verification development for the yap2win Telegram community-engagement bot.

Python dictionaries are embedded as insertion-ordered association lists
(`List (key × value)`), floats as rationals (`ℚ`), `datetime` values as
integers (`Int`, e.g. a Unix timestamp), and `None`-able fields as `Option`.
Wall-clock reads (`datetime.now()`) become an explicit `now : Int` argument.
-/

/-- Lookup of the first binding of a key in an association list, mirroring a
Python dict read (`d.get(k)` / `d[k]`). -/
def alookup {α β : Type} [DecidableEq α] : List (α × β) → α → Option β
  | [], _ => none
  | (k, v) :: rest, a => if k = a then some v else alookup rest a

/-- Write of a key in an association list, mirroring a Python dict write
(`d[k] = v`): replaces the first binding in place, else appends. -/
def aset {α β : Type} [DecidableEq α] : List (α × β) → α → β → List (α × β)
  | [], a, b => [(a, b)]
  | (k, v) :: rest, a, b => if k = a then (a, b) :: rest else (k, v) :: aset rest a b

/-- Removal of a key from an association list, mirroring `del d[k]`. -/
def aerase {α β : Type} [DecidableEq α] (l : List (α × β)) (a : α) : List (α × β) :=
  l.filter (fun p => decide (p.1 ≠ a))

/-- Event configuration dictionary for one group, as assembled by the setup
dialog (`reward_handlers.enter_end_time`): keys `status`, `start_time`,
`end_time`, `type`, `total_amount`, `group_name`, `rank_rewards`.  Fields are
`Option` because the code reads them with `config.get(...)`. -/
structure EventConfig where
  status : Option String
  start_time : Option Int
  end_time : Option Int
  type_ : Option String
  total_amount : Option ℚ
  group_name : Option String
  rank_rewards : Option (List (Nat × ℚ))
deriving DecidableEq

/-- Per-event participant record
(`reward_system.event_participants[group_id][user_id]`). -/
structure Participant where
  points : ℚ
  username : Option String
  first_name : String
deriving DecidableEq

/-- State of `RewardSystem` (src/src/services/reward_system.py): per-group
reward configs and per-group participant scoreboards. -/
structure RewardSystem where
  reward_configs : List (Int × EventConfig)
  event_participants : List (Int × List (Int × Participant))
deriving DecidableEq

/-- Embeds `RewardSystem.set_reward_config`: store the config for the group
and reset that group's participants to the empty dict. -/
def set_reward_config (s : RewardSystem) (group_id : Int) (config : EventConfig) :
    RewardSystem :=
  { s with
    reward_configs := aset s.reward_configs group_id config
    event_participants := aset s.event_participants group_id [] }

/-- Embeds `RewardSystem.is_event_active`: config exists, status equals
`'active'`, both times present, and `start_time <= now <= end_time`. -/
def is_event_active (s : RewardSystem) (group_id : Int) (now : Int) : Bool :=
  match alookup s.reward_configs group_id with
  | none => false
  | some config =>
    if config.status ≠ some "active" then false
    else
      match config.start_time, config.end_time with
      | some start_time, some end_time => decide (start_time ≤ now ∧ now ≤ end_time)
      | _, _ => false

/-- Embeds `RewardSystem.get_event_status`: the detailed event status string. -/
def get_event_status (s : RewardSystem) (group_id : Int) (now : Int) : String :=
  match alookup s.reward_configs group_id with
  | none => "no_event"
  | some config =>
    if config.status = some "finished" then "finished"
    else
      match config.start_time, config.end_time with
      | some start_time, some end_time =>
        if now < start_time then "not_started"
        else if now > end_time then "time_expired"
        else "active"
      | _, _ => "invalid_config"

/-- Embeds `RewardSystem.get_event_participants`: the group's participant dict,
defaulting to empty. -/
def get_event_participants (s : RewardSystem) (group_id : Int) :
    List (Int × Participant) :=
  (alookup s.event_participants group_id).getD []

/-- Embeds the participant-dict mutation of
`RewardSystem.add_participant_score` (lines 106-115): insert the user with 0
points if absent, then add the score and refresh username/first_name. -/
def update_participant (parts : List (Int × Participant)) (user_id : Int) (score : ℚ)
    (username : Option String) (first_name : String) : List (Int × Participant) :=
  let parts1 :=
    match alookup parts user_id with
    | none => aset parts user_id ⟨0, username, first_name⟩
    | some _ => parts
  match alookup parts1 user_id with
  | some p => aset parts1 user_id ⟨p.points + score, username, first_name⟩
  | none => parts1

/-- Embeds `RewardSystem.add_participant_score`: returns the state unchanged
unless `is_event_active`, else creates/accumulates the participant entry. -/
def add_participant_score (s : RewardSystem) (group_id user_id : Int) (score : ℚ)
    (username : Option String) (first_name : String) (now : Int) : RewardSystem :=
  if is_event_active s group_id now then
    { s with
      event_participants :=
        aset s.event_participants group_id
          (update_participant (get_event_participants s group_id) user_id score
            username first_name) }
  else s

/-- Structured content of the result message built by `get_event_results` and
its two formatters: the numbers and lists the message displays, without the
surrounding text glue. -/
inductive EventResults where
  | no_config
  | no_participants (group_name : String) (event_type : String) (total_amount : ℚ)
  | pool_results (group_name : String) (total_amount : ℚ) (participant_count : Nat)
      (share_per_person : ℚ) (rankings : List (Int × Participant))
  | rank_results (group_name : String) (total_amount : ℚ)
      (rankings : List (Int × Participant)) (rank_rewards : List (Nat × ℚ))
deriving DecidableEq

/-- Comparator of `sorted(participants.items(), key=lambda x: x[1]['points'],
reverse=True)`: higher points first.  The embedding sorts with the stable
`List.insertionSort`, matching Python's stable `sorted`. -/
def points_ge (a b : Int × Participant) : Prop :=
  b.2.points ≤ a.2.points

instance : DecidableRel points_ge :=
  fun a b => inferInstanceAs (Decidable (b.2.points ≤ a.2.points))

instance : IsTotal (Int × Participant) points_ge :=
  ⟨fun a b => le_total b.2.points a.2.points⟩

instance : IsTrans (Int × Participant) points_ge :=
  ⟨fun _ _ _ h1 h2 => le_trans h2 h1⟩

/-- Embeds `RewardSystem._format_pool_results`: equal share
`total_amount / participant_count` (0 when there are no participants) and the
ranked participant list. -/
def format_pool_results (group_name : String) (total_amount : ℚ)
    (sorted_participants : List (Int × Participant)) : EventResults :=
  let participant_count := sorted_participants.length
  let share_per_person : ℚ :=
    if participant_count > 0 then total_amount / participant_count else 0
  .pool_results group_name total_amount participant_count share_per_person
    sorted_participants

/-- Embeds `RewardSystem._format_rank_results`: ranked participant list next to
the configured rank-reward table. -/
def format_rank_results (group_name : String) (total_amount : ℚ)
    (sorted_participants : List (Int × Participant)) (config : EventConfig) :
    EventResults :=
  .rank_results group_name total_amount sorted_participants
    (config.rank_rewards.getD [])

/-- Embeds `RewardSystem.get_event_results`. -/
def get_event_results (s : RewardSystem) (group_id : Int) : EventResults :=
  match alookup s.reward_configs group_id with
  | none => .no_config
  | some config =>
    let group_name := config.group_name.getD "Unknown Group"
    let event_type := config.type_.getD "unknown"
    let total_amount := config.total_amount.getD 0
    let participants := (alookup s.event_participants group_id).getD []
    if participants = [] then
      .no_participants group_name event_type total_amount
    else
      let sorted_participants := participants.insertionSort points_ge
      if event_type = "pool" then
        format_pool_results group_name total_amount sorted_participants
      else
        format_rank_results group_name total_amount sorted_participants config

/-- Embeds `RewardSystem.validate_custom_rank_distribution`:
`abs(sum(custom_amounts) - total_amount) <= 0.01`. -/
def validate_custom_rank_distribution (custom_amounts : List ℚ)
    (total_amount : ℚ) : Bool :=
  decide (|custom_amounts.sum - total_amount| ≤ 1 / 100)

/-- Conversation-state constant `ENTERING_RANK_DISTRIBUTION` (config.py). -/
def ENTERING_RANK_DISTRIBUTION : Nat := 4

/-- Conversation-state constant `ENTERING_START_TIME` (config.py). -/
def ENTERING_START_TIME : Nat := 5

/-- Embeds `RewardHandlers._handle_custom_distribution` after float parsing:
`custom_amounts` holds the numbers parsed from the tokens after `custom`
(`parts[1:]`, so nonempty exactly when `len(parts) > 1`).  Returns the next
conversation state together with the `rank_rewards` table stored on success
(`{i+1: amount}` over the entered amounts). -/
def handle_custom_distribution (custom_amounts : List ℚ) (total_amount : ℚ) :
    Nat × Option (List (Nat × ℚ)) :=
  if custom_amounts ≠ [] then
    if ¬ validate_custom_rank_distribution custom_amounts total_amount then
      (ENTERING_RANK_DISTRIBUTION, none)
    else
      (ENTERING_START_TIME,
        some (custom_amounts.enum.map (fun p => (p.1 + 1, p.2))))
  else (ENTERING_RANK_DISTRIBUTION, none)

/-- Modelled from the spec (claim wording for the status table of §4.2): the
five-state derivation of the event status from
`(status, start_time, end_time, now)`, used to compare `get_event_status`
against the specified table. -/
def status_table_spec (status : Option String) (start_time end_time now : Int) :
    String :=
  if status = some "finished" then "finished"
  else if now < start_time then "not_started"
  else if now ≤ end_time then "active"
  else "time_expired"

/-- Per-group entry of `DataStorage.user_points[user_id][group_id]`. -/
structure GroupPoints where
  points : ℚ
  group_name : String
deriving DecidableEq

/-- State of `DataStorage` (src/src/services/data_storage.py), restricted to
the `user_points` map the point-accounting claims are about. -/
structure DataStorage where
  user_points : List (Int × List (Int × GroupPoints))
deriving DecidableEq

/-- Embeds `DataStorage.add_user_points`: create the nested dicts on demand,
then add `points` and refresh the stored `group_name`. -/
def add_user_points (s : DataStorage) (user_id group_id : Int) (points : ℚ)
    (group_name : String) : DataStorage :=
  let user_map := (alookup s.user_points user_id).getD []
  let user_map1 :=
    match alookup user_map group_id with
    | none => aset user_map group_id ⟨0, group_name⟩
    | some _ => user_map
  let user_map2 :=
    match alookup user_map1 group_id with
    | some gp => aset user_map1 group_id ⟨gp.points + points, group_name⟩
    | none => user_map1
  { s with user_points := aset s.user_points user_id user_map2 }

/-- Embeds `DataStorage.get_user_points_in_group` (0 when absent). -/
def get_user_points_in_group (s : DataStorage) (user_id group_id : Int) : ℚ :=
  match alookup ((alookup s.user_points user_id).getD []) group_id with
  | some gp => gp.points
  | none => 0

/-- Embeds `DataStorage.get_total_user_points`: sum of the per-group `points`
values of the user. -/
def get_total_user_points (s : DataStorage) (user_id : Int) : ℚ :=
  (((alookup s.user_points user_id).getD []).map (fun p => p.2.points)).sum

/-- One call of `add_user_points`, for reasoning about call sequences. -/
structure AddCall where
  user_id : Int
  group_id : Int
  points : ℚ
  group_name : String
deriving DecidableEq

/-- Apply a sequence of `add_user_points` calls in order. -/
def apply_add_calls (s : DataStorage) : List AddCall → DataStorage
  | [] => s
  | c :: rest =>
    apply_add_calls (add_user_points s c.user_id c.group_id c.points c.group_name) rest

/-- Sum of the scores of the calls in `ops` that target `(user_id, group_id)`. -/
def calls_sum_for (ops : List AddCall) (user_id group_id : Int) : ℚ :=
  ((ops.filter (fun c => decide (c.user_id = user_id ∧ c.group_id = group_id))).map
    (fun c => c.points)).sum

/-- Sum of the scores of the calls in `ops` made for `user_id`, over all
groups. -/
def calls_sum_for_user (ops : List AddCall) (user_id : Int) : ℚ :=
  ((ops.filter (fun c => decide (c.user_id = user_id))).map (fun c => c.points)).sum

/-- The empty `DataStorage` (`DataStorage.__init__`). -/
def empty_data_storage : DataStorage := ⟨[]⟩

/-- NFT requirement value stored in `VerificationRule.nft_holder`: the Python
field holds either `True` (any NFT) or a specific NFT name string; `None`
becomes `Option.none` around this type. -/
inductive NftReq where
  | any_nft
  | kind (name : String)
deriving DecidableEq

/-- Embeds `VerificationRule` (src/src/utils/verification.py). -/
structure VerificationRule where
  country : Option String
  age : Option Int
  nft_holder : Option NftReq
  collect_address : Bool
deriving DecidableEq

/-- Collected answers of a verification session
(`pending_verifications[user_id]['data']`, keys `country`, `age`, `address`). -/
structure VerificationData where
  country : Option String
  age : Option Int
  address : Option String
deriving DecidableEq

/-- Embeds a pending verification session
(`pending_verifications[user_id]`). -/
structure PendingVerification where
  group_id : Int
  step : String
  data : VerificationData
deriving DecidableEq

/-- State of `UserVerification` (src/src/utils/verification.py). -/
structure UserVerification where
  verified_users : List Int
  group_rules : List (Int × VerificationRule)
  pending_verifications : List (Int × PendingVerification)
  user_addresses : List (Int × String)
deriving DecidableEq

/-- Embeds Python's `str.lower()` (ASCII case folding, character by
character). -/
def str_lower (s : String) : String :=
  ⟨s.data.map Char.toLower⟩

/-- Embeds the country clause of `check_verification_requirements`: the check
applies when `rule.country` is truthy and not the literal string `"None"`, and
compares lower-cased values. -/
def country_check (rule : VerificationRule) (user_data : VerificationData) : Bool :=
  match rule.country with
  | none => true
  | some c =>
    if c = "" ∨ c = "None" then true
    else decide (str_lower (user_data.country.getD "") = str_lower c)

/-- Embeds the age clause of `check_verification_requirements`: the check
applies when `rule.age` is truthy and positive; the user's age (default 0)
must not be below it. -/
def age_check (rule : VerificationRule) (user_data : VerificationData) : Bool :=
  match rule.age with
  | none => true
  | some a => if a ≠ 0 ∧ a > 0 then decide (¬ user_data.age.getD 0 < a) else true

/-- Embeds the NFT clause of `check_verification_requirements`: wallet address
is `user_data.get('address') or self.get_user_address(user_id)` (Python `or`,
so an empty string falls through), a falsy wallet fails, else the blockchain
lookup (abstract `ownsAsset`, the spec's AssetRegistry) decides. -/
def nft_check (ownsAsset : String → NftReq → Bool) (s : UserVerification)
    (user_id : Int) (rule : VerificationRule) (user_data : VerificationData) : Bool :=
  match rule.nft_holder with
  | none => true
  | some req =>
    let wallet : Option String :=
      match user_data.address with
      | some a => if a = "" then alookup s.user_addresses user_id else some a
      | none => alookup s.user_addresses user_id
    match wallet with
    | some w => if w = "" then false else ownsAsset w req
    | none => false

/-- Embeds `UserVerification.check_verification_requirements`: no rule means
pass; otherwise the country, age and NFT clauses must all hold, checked in
that order. -/
def check_verification_requirements (ownsAsset : String → NftReq → Bool)
    (s : UserVerification) (user_id group_id : Int)
    (user_data : VerificationData) : Bool :=
  match alookup s.group_rules group_id with
  | none => true
  | some rule =>
    country_check rule user_data && age_check rule user_data &&
      nft_check ownsAsset s user_id rule user_data

/-- Addition to the `verified_users` set (`set.add`). -/
def insert_verified (l : List Int) (user_id : Int) : List Int :=
  if user_id ∈ l then l else user_id :: l

/-- Embeds `UserVerification.complete_verification`: compute the verdict from
the session data, on pass add the user to the verified set and store the
wallet address when the `address` key is present, delete the pending session
in both cases, and return the verdict. -/
def complete_verification (ownsAsset : String → NftReq → Bool)
    (s : UserVerification) (user_id : Int) : UserVerification × Bool :=
  match alookup s.pending_verifications user_id with
  | none => (s, false)
  | some v =>
    let passed := check_verification_requirements ownsAsset s user_id v.group_id v.data
    let s1 :=
      if passed then
        { s with
          verified_users := insert_verified s.verified_users user_id
          user_addresses :=
            match v.data.address with
            | some a => aset s.user_addresses user_id a
            | none => s.user_addresses }
      else s
    ({ s1 with pending_verifications := aerase s1.pending_verifications user_id },
      passed)

/-- Embeds `UserVerification.is_user_verified`: the body is literally
`return True` (the membership check is commented out in the source). -/
def is_user_verified (_s : UserVerification) (_user_id : Int) : Bool :=
  true

/-- Which branch `MessageProcessor._handle_group_message` takes for a sender:
kick the unverified user, or go on to score the message. -/
inductive GroupMessageAction where
  | kick_unverified
  | process_and_score
deriving DecidableEq

/-- Embeds the gating branch of `MessageProcessor._handle_group_message`:
`if not verification.is_user_verified(user_id)` kicks, else processing
continues. -/
def handle_group_message (s : UserVerification) (user_id : Int) :
    GroupMessageAction :=
  if ¬ is_user_verified s user_id then .kick_unverified else .process_and_score

/-- The `verification_setup` dict accumulated by the event-setup dialog's
verification tail (`reward_handlers`). -/
structure VerificationSetup where
  country : Option String
  age : Option Int
  nft_holder : Option NftReq
  collect_address : Bool
deriving DecidableEq

/-- Embeds the NFT-input branch of `RewardHandlers.enter_verification_nft`
(lines 504-510): `'none'` clears the requirement, `'yes'` stores `True`, any
other text is stored verbatim as a specific NFT requirement. -/
def enter_verification_nft_setup (text : String) (setup : VerificationSetup) :
    VerificationSetup :=
  if str_lower text = "none" then { setup with nft_holder := none }
  else if str_lower text = "yes" then { setup with nft_holder := some NftReq.any_nft }
  else { setup with nft_holder := some (NftReq.kind text) }

/-- The `VerificationRule` that `enter_verification_nft` builds from the
completed setup (lines 515-520). -/
def enter_verification_nft_rule (text : String) (setup : VerificationSetup) :
    VerificationRule :=
  let setup1 := enter_verification_nft_setup text setup
  { country := setup1.country
    age := setup1.age
    nft_holder := setup1.nft_holder
    collect_address := setup1.collect_address }

/-- Embeds the rule-storing effect of `enter_verification_nft`
(`verification.set_group_rule(selected_group_id, rule)`). -/
def enter_verification_nft (text : String) (setup : VerificationSetup)
    (vs : UserVerification) (group_id : Int) : UserVerification :=
  { vs with
    group_rules := aset vs.group_rules group_id (enter_verification_nft_rule text setup) }

/-- Example reward-system state: group 1 has an active pool event over the
time window `[0, 100]`. -/
def exampleActiveRS : RewardSystem :=
  ⟨[(1, ⟨some "active", some 0, some 100, some "pool", some 10, some "G", none⟩)], []⟩

/-- Example reward-system state: group 1 has an active config whose
`start_time` is missing. -/
def exampleNoStartRS : RewardSystem :=
  ⟨[(1, ⟨some "active", none, some 100, some "pool", some 10, some "G", none⟩)], []⟩

/-- Example reward-system state: group 1 has a finished config with both
times missing. -/
def exampleFinishedNoTimesRS : RewardSystem :=
  ⟨[(1, ⟨some "finished", none, none, some "pool", some 10, some "G", none⟩)], []⟩

/-- Example reward-system state: group 1 has a finished pool event with two
participants. -/
def exampleFinishedPoolRS : RewardSystem :=
  ⟨[(1, ⟨some "finished", some 0, some 100, some "pool", some 10, some "G", none⟩)],
   [(1, [(5, ⟨1, some "u", "A"⟩), (6, ⟨3, none, "B"⟩)])]⟩

/-- Example reward-system state: group 1 has a finished pool event with no
participants. -/
def exampleFinishedEmptyRS : RewardSystem :=
  ⟨[(1, ⟨some "finished", some 0, some 100, some "pool", some 10, some "G", none⟩)],
   [(1, [])]⟩

/-- Example sequence of `add_user_points` calls. -/
def exampleAddCalls : List AddCall :=
  [⟨1, 10, 2, "G"⟩, ⟨1, 10, 3, "G"⟩, ⟨2, 10, 5, "G"⟩]

/-- Example verification state: group 1 requires country US and age 18, and
user 9 has a pending session whose data satisfies the rule. -/
def exampleUV : UserVerification :=
  ⟨[], [(1, ⟨some "US", some 18, none, true⟩)],
   [(9, ⟨1, "address", ⟨some "us", some 20, some "0xabc"⟩⟩)], []⟩

theorem alookup_aset_self {α β : Type} [DecidableEq α] (l : List (α × β)) (a : α) (b : β) :
    alookup (aset l a b) a = some b := by
  induction l with
  | nil => simp [alookup, aset]
  | cons hd tl ih =>
    by_cases h : hd.1 = a
    · simp [aset, alookup, h]
    · simp [aset, alookup, h, ih]

theorem alookup_aset_ne {α β : Type} [DecidableEq α] (l : List (α × β)) (a a' : α) (b : β)
    (h : a' ≠ a) : alookup (aset l a b) a' = alookup l a' := by
  have h' : ¬ a = a' := fun hc => h hc.symm
  induction l with
  | nil => simp [alookup, aset, h']
  | cons hd tl ih =>
    by_cases hk : hd.1 = a
    · simp [aset, alookup, hk, h']
    · simp [aset, alookup, hk, ih]

theorem alookup_aerase_self {α β : Type} [DecidableEq α] (l : List (α × β)) (a : α) :
    alookup (aerase l a) a = none := by
  induction l with
  | nil => simp [alookup, aerase]
  | cons hd tl ih =>
    by_cases h : hd.1 = a
    · simpa [aerase, List.filter_cons, h] using ih
    · simpa [aerase, List.filter_cons, alookup, h] using ih

theorem alookup_aerase_ne {α β : Type} [DecidableEq α] (l : List (α × β)) (a a' : α)
    (h : a' ≠ a) : alookup (aerase l a) a' = alookup l a' := by
  induction l with
  | nil => simp [alookup, aerase]
  | cons hd tl ih =>
    have h' : ¬ a = a' := fun hc => h hc.symm
    simp only [aerase, ne_eq, decide_not] at ih ⊢
    by_cases hk : hd.1 = a
    · simpa [List.filter_cons, alookup, hk, h'] using ih
    · simp [List.filter_cons, alookup, hk, ih]

/-- Claim C2: for a group whose config carries both times, `get_event_status`
is the pure five-state function of `(status, start_time, end_time, now)` given
by the spec's table, with both boundary instants mapping to `active`; with no
config it returns `no_event`. -/
theorem get_event_status_matches_spec_table (s : RewardSystem) (g now : Int) :
    (alookup s.reward_configs g = none → get_event_status s g now = "no_event") ∧
    (∀ cfg st et, alookup s.reward_configs g = some cfg →
      cfg.start_time = some st → cfg.end_time = some et →
      get_event_status s g now = status_table_spec cfg.status st et now) := by
  constructor
  · intro h
    simp [get_event_status, h]
  · intro cfg st et hc hst het
    simp only [get_event_status, hc, hst, het, status_table_spec]
    split_ifs <;> first | rfl | omega

/-- Witness for C2 at a concrete state, at the boundary instant
`now = start_time`. -/
theorem get_event_status_matches_spec_table_witness :
    get_event_status exampleActiveRS 1 0 = status_table_spec (some "active") 0 100 0 :=
  (get_event_status_matches_spec_table exampleActiveRS 1 0).2
    ⟨some "active", some 0, some 100, some "pool", some 10, some "G", none⟩
    0 100 rfl rfl rfl

/-- Claim C10: with a config present whose status is not `finished` and a
missing start or end time, `get_event_status` returns the sixth status value
`invalid_config`; the `finished` check takes precedence over the missing-times
check. -/
theorem get_event_status_invalid_config (s : RewardSystem) (g now : Int)
    (cfg : EventConfig) (hc : alookup s.reward_configs g = some cfg) :
    (cfg.status ≠ some "finished" →
      cfg.start_time = none ∨ cfg.end_time = none →
      get_event_status s g now = "invalid_config") ∧
    (cfg.status = some "finished" → get_event_status s g now = "finished") := by
  constructor
  · intro hs hmiss
    cases h2 : cfg.start_time <;> cases h3 : cfg.end_time <;>
      simp_all [get_event_status, hc]
  · intro hs
    simp [get_event_status, hc, hs]

/-- Witness for C10: an active config with a missing start time yields
`invalid_config`, and a finished config with both times missing still yields
`finished`. -/
theorem get_event_status_invalid_config_witness :
    get_event_status exampleNoStartRS 1 50 = "invalid_config" ∧
    get_event_status exampleFinishedNoTimesRS 1 50 = "finished" :=
  ⟨(get_event_status_invalid_config exampleNoStartRS 1 50
      ⟨some "active", none, some 100, some "pool", some 10, some "G", none⟩ rfl).1
      (by decide) (Or.inl rfl),
   (get_event_status_invalid_config exampleFinishedNoTimesRS 1 50
      ⟨some "finished", none, none, some "pool", some 10, some "G", none⟩ rfl).2 rfl⟩

/-- Claim C5: `set_reward_config` stores the new config for the group and
resets that group's participant map to empty, leaving every other group's
config and participants unchanged. -/
theorem set_reward_config_resets_participants (s : RewardSystem) (g : Int)
    (c : EventConfig) :
    alookup (set_reward_config s g c).reward_configs g = some c ∧
    alookup (set_reward_config s g c).event_participants g = some [] ∧
    ∀ g', g' ≠ g →
      alookup (set_reward_config s g c).reward_configs g' =
        alookup s.reward_configs g' ∧
      alookup (set_reward_config s g c).event_participants g' =
        alookup s.event_participants g' := by
  refine ⟨?_, ?_, ?_⟩
  · simpa [set_reward_config] using alookup_aset_self s.reward_configs g c
  · simpa [set_reward_config] using alookup_aset_self s.event_participants g []
  · intro g' hg
    exact ⟨alookup_aset_ne _ _ _ _ hg, alookup_aset_ne _ _ _ _ hg⟩

/-- Witness for C5 at a concrete state: setting a new config for group 1
empties the old scoreboard and leaves group 2 alone. -/
theorem set_reward_config_resets_participants_witness :
    alookup ((set_reward_config exampleFinishedPoolRS 1
      ⟨some "active", some 200, some 300, some "rank", some 7, some "G", none⟩).event_participants) 1 = some [] ∧
    alookup ((set_reward_config exampleFinishedPoolRS 1
      ⟨some "active", some 200, some 300, some "rank", some 7, some "G", none⟩).event_participants) 2 = alookup exampleFinishedPoolRS.event_participants 2 :=
  ⟨(set_reward_config_resets_participants exampleFinishedPoolRS 1
      ⟨some "active", some 200, some 300, some "rank", some 7, some "G", none⟩).2.1,
   ((set_reward_config_resets_participants exampleFinishedPoolRS 1
      ⟨some "active", some 200, some 300, some "rank", some 7, some "G", none⟩).2.2
      2 (by decide)).2⟩

theorem alookup_update_participant (parts : List (Int × Participant)) (u : Int)
    (score : ℚ) (un : Option String) (fn : String) :
    alookup (update_participant parts u score un fn) u =
      some ⟨((alookup parts u).map Participant.points).getD 0 + score, un, fn⟩ := by
  cases h : alookup parts u <;>
    simp [update_participant, h, alookup_aset_self]

theorem is_event_active_status (s : RewardSystem) (g now : Int)
    (h : is_event_active s g now = true) : get_event_status s g now = "active" := by
  unfold is_event_active at h
  unfold get_event_status
  cases hc : alookup s.reward_configs g
  · rw [hc] at h
    simp at h
  · rename_i cfg
    rw [hc] at h
    by_cases hs : cfg.status = some "active"
    · cases hst : cfg.start_time
      · simp [hs, hst] at h
      · rename_i st
        cases het : cfg.end_time
        · simp [hs, hst, het] at h
        · rename_i et
          simp [hs, hst, het] at h ⊢
          split_ifs <;> first | rfl | omega
    · simp [hs] at h

/-- Claim C1: `add_participant_score` leaves the state untouched whenever the
event status of the group is not `active` (in particular with no config, a
finished status, or an active status outside the time window); when the event
is active it creates the participant if absent and adds the score to their
points (refreshing username and first name). -/
theorem add_participant_score_gated (s : RewardSystem) (g u : Int) (score : ℚ)
    (un : Option String) (fn : String) (now : Int) :
    (get_event_status s g now ≠ "active" →
      add_participant_score s g u score un fn now = s) ∧
    (is_event_active s g now = true →
      get_event_status s g now = "active" ∧
      alookup (get_event_participants (add_participant_score s g u score un fn now) g) u =
        some ⟨((alookup (get_event_participants s g) u).map Participant.points).getD 0
          + score, un, fn⟩) := by
  constructor
  · intro hns
    cases ha : is_event_active s g now
    · simp [add_participant_score, ha]
    · exact absurd (is_event_active_status s g now ha) hns
  · intro ha
    refine ⟨is_event_active_status s g now ha, ?_⟩
    simp only [add_participant_score, ha, if_true]
    unfold get_event_participants
    rw [alookup_aset_self]
    simpa using alookup_update_participant (get_event_participants s g) u score un fn

/-- Witness for C1: at `now = 200` the window `[0, 100]` has expired and the
call is a no-op; at `now = 50` the event is active and the absent user 5 is
created with exactly the added score. -/
theorem add_participant_score_gated_witness :
    add_participant_score exampleActiveRS 1 5 2 (some "u") "A" 200 = exampleActiveRS ∧
    alookup (get_event_participants
      (add_participant_score exampleActiveRS 1 5 2 (some "u") "A" 50) 1) 5 =
      some ⟨0 + 2, some "u", "A"⟩ :=
  ⟨(add_participant_score_gated exampleActiveRS 1 5 2 (some "u") "A" 200).1
      (by decide),
   ((add_participant_score_gated exampleActiveRS 1 5 2 (some "u") "A" 50).2
      (by decide)).2⟩

/-- Claim C3: for a finished Pool event with participants, `get_event_results`
reports a share per person equal to `total_amount / N`, an equal split
independent of each participant's points, and lists all `N` participants
sorted by points descending; with no participants it returns the
no-participants message instead. -/
theorem get_event_results_pool_split (s : RewardSystem) (g : Int)
    (cfg : EventConfig) (parts : List (Int × Participant))
    (hc : alookup s.reward_configs g = some cfg)
    (_hfin : cfg.status = some "finished")
    (hty : cfg.type_ = some "pool")
    (hp : alookup s.event_participants g = some parts) :
    (parts = [] → get_event_results s g =
      EventResults.no_participants (cfg.group_name.getD "Unknown Group") "pool"
        (cfg.total_amount.getD 0)) ∧
    (parts ≠ [] →
      get_event_results s g =
        EventResults.pool_results (cfg.group_name.getD "Unknown Group")
          (cfg.total_amount.getD 0) parts.length
          ((cfg.total_amount.getD 0) / (parts.length : ℚ))
          (parts.insertionSort points_ge) ∧
      (parts.insertionSort points_ge).Perm parts ∧
      List.Sorted points_ge (parts.insertionSort points_ge)) := by
  constructor
  · intro he
    subst he
    simp [get_event_results, hc, hp, hty]
  · intro hne
    refine ⟨?_, List.perm_insertionSort points_ge parts,
      List.sorted_insertionSort points_ge parts⟩
    simp only [get_event_results, hc, hp, hty, Option.getD_some]
    rw [if_neg hne]
    simp only [if_true, format_pool_results]
    rw [List.Perm.length_eq (List.perm_insertionSort points_ge parts)]
    rw [if_pos (List.length_pos.mpr hne)]

/-- Witness for C3 at concrete states: the empty event yields the
no-participants message; with two participants of 1 and 3 points the share is
`10 / 2 = 5` for both and the ranking lists both, higher points first. -/
theorem get_event_results_pool_split_witness :
    get_event_results exampleFinishedEmptyRS 1 =
      EventResults.no_participants "G" "pool" 10 ∧
    get_event_results exampleFinishedPoolRS 1 =
      EventResults.pool_results "G" 10 2 5
        [(6, ⟨3, none, "B"⟩), (5, ⟨1, some "u", "A"⟩)] := by
  constructor
  · exact (get_event_results_pool_split exampleFinishedEmptyRS 1
      ⟨some "finished", some 0, some 100, some "pool", some 10, some "G", none⟩
      [] (by decide) rfl rfl (by decide)).1 rfl
  · have h := ((get_event_results_pool_split exampleFinishedPoolRS 1
      ⟨some "finished", some 0, some 100, some "pool", some 10, some "G", none⟩
      [(5, ⟨1, some "u", "A"⟩), (6, ⟨3, none, "B"⟩)] (by decide) rfl rfl
      (by decide)).2 (by decide)).1
    rw [h]
    norm_num [List.insertionSort, List.orderedInsert, points_ge]

/-- Claim C4: a custom rank distribution is accepted exactly when the entered
amounts sum to the total within the 0.01 tolerance; outside tolerance the
input is rejected and the dialog stays in `ENTERING_RANK_DISTRIBUTION`
(assuming the input parsed as `custom` followed by at least one number, so
`custom_amounts` is nonempty). -/
theorem custom_rank_distribution_tolerance (custom_amounts : List ℚ)
    (total_amount : ℚ) :
    (validate_custom_rank_distribution custom_amounts total_amount = true ↔
      |custom_amounts.sum - total_amount| ≤ 1 / 100) ∧
    (custom_amounts ≠ [] →
      ((handle_custom_distribution custom_amounts total_amount).1 =
          ENTERING_START_TIME ↔
        |custom_amounts.sum - total_amount| ≤ 1 / 100) ∧
      (¬ |custom_amounts.sum - total_amount| ≤ 1 / 100 →
        (handle_custom_distribution custom_amounts total_amount).1 =
          ENTERING_RANK_DISTRIBUTION)) := by
  have hval : validate_custom_rank_distribution custom_amounts total_amount = true ↔
      |custom_amounts.sum - total_amount| ≤ 1 / 100 := by
    simp [validate_custom_rank_distribution]
  refine ⟨hval, fun hne => ⟨?_, ?_⟩⟩
  · by_cases hv : validate_custom_rank_distribution custom_amounts total_amount = true
    · simp [handle_custom_distribution, hne, hv]
      simpa using hval.mp hv
    · have hgt : ¬ |custom_amounts.sum - total_amount| ≤ 1 / 100 :=
        fun hle => hv (hval.mpr hle)
      simp [handle_custom_distribution, hne, hv,
        ENTERING_RANK_DISTRIBUTION, ENTERING_START_TIME]
      simpa using not_le.mp hgt
  · intro hout
    have hv : ¬ validate_custom_rank_distribution custom_amounts total_amount = true :=
      fun hvt => hout (hval.mp hvt)
    simp [handle_custom_distribution, hne, hv]

/-- Witness for C4: `custom 600 300 50` against a total of 1000 misses the
tolerance and stays in the distribution state, while `custom 600 300 100`
sums exactly and advances to the start-time state. -/
theorem custom_rank_distribution_tolerance_witness :
    (handle_custom_distribution [600, 300, 50] 1000).1 =
      ENTERING_RANK_DISTRIBUTION ∧
    (handle_custom_distribution [600, 300, 100] 1000).1 =
      ENTERING_START_TIME :=
  ⟨((custom_rank_distribution_tolerance [600, 300, 50] 1000).2
      (by decide)).2 (by norm_num),
   ((custom_rank_distribution_tolerance [600, 300, 100] 1000).2
      (by decide)).1.mpr (by norm_num)⟩

theorem get_user_points_in_group_add (s : DataStorage) (u g u2 g2 : Int)
    (p : ℚ) (n : String) :
    get_user_points_in_group (add_user_points s u2 g2 p n) u g =
      get_user_points_in_group s u g + (if u2 = u ∧ g2 = g then p else 0) := by
  unfold add_user_points get_user_points_in_group
  by_cases hu : u2 = u
  · subst hu
    rw [alookup_aset_self]
    simp only [Option.getD_some]
    by_cases hg : g2 = g
    · subst hg
      cases h1 : alookup ((alookup s.user_points u2).getD []) g2 <;>
        simp [h1, alookup_aset_self]
    · have hgg : g ≠ g2 := fun hc => hg hc.symm
      cases h1 : alookup ((alookup s.user_points u2).getD []) g2 <;>
        simp [h1, alookup_aset_self, alookup_aset_ne _ _ _ _ hgg, hg]
  · have huu : u ≠ u2 := fun hc => hu hc.symm
    rw [alookup_aset_ne _ _ _ _ huu]
    simp [hu]

theorem sum_points_aset (l : List (Int × GroupPoints)) (g : Int) (b : GroupPoints) :
    ((aset l g b).map (fun q => q.2.points)).sum =
      (l.map (fun q => q.2.points)).sum + b.points -
        ((alookup l g).map GroupPoints.points).getD 0 := by
  induction l with
  | nil => simp [aset, alookup]
  | cons hd tl ih =>
    by_cases h : hd.1 = g
    · simp [aset, alookup, h]
      ring
    · simp [aset, alookup, h, ih]
      ring

theorem get_total_user_points_add (s : DataStorage) (u u2 g2 : Int) (p : ℚ)
    (n : String) :
    get_total_user_points (add_user_points s u2 g2 p n) u =
      get_total_user_points s u + (if u2 = u then p else 0) := by
  unfold add_user_points get_total_user_points
  by_cases hu : u2 = u
  · subst hu
    rw [alookup_aset_self]
    simp only [Option.getD_some]
    cases h1 : alookup ((alookup s.user_points u2).getD []) g2 <;>
      simp [h1, alookup_aset_self, sum_points_aset] <;> ring
  · have huu : u ≠ u2 := fun hc => hu hc.symm
    rw [alookup_aset_ne _ _ _ _ huu]
    simp [hu]

theorem get_points_apply_add_calls (ops : List AddCall) (s : DataStorage)
    (u g : Int) :
    get_user_points_in_group (apply_add_calls s ops) u g =
      get_user_points_in_group s u g + calls_sum_for ops u g := by
  induction ops generalizing s with
  | nil => simp [apply_add_calls, calls_sum_for]
  | cons c rest ih =>
    simp only [apply_add_calls]
    rw [ih, get_user_points_in_group_add]
    simp only [calls_sum_for, List.filter_cons]
    by_cases h : c.user_id = u ∧ c.group_id = g
    · simp [h]
      ring
    · simp [h]

theorem get_total_apply_add_calls (ops : List AddCall) (s : DataStorage) (u : Int) :
    get_total_user_points (apply_add_calls s ops) u =
      get_total_user_points s u + calls_sum_for_user ops u := by
  induction ops generalizing s with
  | nil => simp [apply_add_calls, calls_sum_for_user]
  | cons c rest ih =>
    simp only [apply_add_calls]
    rw [ih, get_total_user_points_add]
    simp only [calls_sum_for_user, List.filter_cons]
    by_cases h : c.user_id = u
    · simp [h]
      ring
    · simp [h]

/-- Claim C6: starting from the empty storage, after any sequence of
`add_user_points` calls with positive scores the per-group points of a user
equal the sum of the scores applied to that (user, group) pair (0 with no
calls), the result is independent of the order of the calls, a single call
never decreases any stored per-group points, and the total of a user is the
sum of the per-user scores across all groups. -/
theorem points_ledger_accumulation (ops : List AddCall) (u g : Int)
    (_hpos : ∀ c ∈ ops, 0 < c.points) :
    get_user_points_in_group (apply_add_calls empty_data_storage ops) u g =
      calls_sum_for ops u g ∧
    (∀ ops2, ops.Perm ops2 →
      get_user_points_in_group (apply_add_calls empty_data_storage ops2) u g =
        get_user_points_in_group (apply_add_calls empty_data_storage ops) u g) ∧
    (∀ (s : DataStorage) (u2 g2 : Int) (p : ℚ) (n : String), 0 < p →
      get_user_points_in_group s u g ≤
        get_user_points_in_group (add_user_points s u2 g2 p n) u g) ∧
    get_total_user_points (apply_add_calls empty_data_storage ops) u =
      calls_sum_for_user ops u := by
  refine ⟨?_, ?_, ?_, ?_⟩
  · rw [get_points_apply_add_calls]
    simp [empty_data_storage, get_user_points_in_group, alookup]
  · intro ops2 hperm
    rw [get_points_apply_add_calls, get_points_apply_add_calls]
    have hsum : calls_sum_for ops2 u g = calls_sum_for ops u g := by
      unfold calls_sum_for
      exact ((hperm.symm.filter _).map _).sum_eq
    rw [hsum]
  · intro s u2 g2 p n hp
    rw [get_user_points_in_group_add]
    by_cases h : u2 = u ∧ g2 = g
    · simp [h]
      linarith
    · simp [h]
  · rw [get_total_apply_add_calls]
    simp [empty_data_storage, get_total_user_points, alookup]

/-- Witness for C6 on a concrete call sequence: user 1 accumulates 2 + 3 in
group 10 and that is also their total. -/
theorem points_ledger_accumulation_witness :
    get_user_points_in_group (apply_add_calls empty_data_storage exampleAddCalls) 1 10 =
      calls_sum_for exampleAddCalls 1 10 ∧
    get_total_user_points (apply_add_calls empty_data_storage exampleAddCalls) 1 =
      calls_sum_for_user exampleAddCalls 1 :=
  ⟨(points_ledger_accumulation exampleAddCalls 1 10 (by decide)).1,
   (points_ledger_accumulation exampleAddCalls 1 10 (by decide)).2.2.2⟩

/-- Claim C7: for a user with a pending verification session,
`complete_verification` returns the verdict computed from the session data
against the group's rule, adds the user to the verified set (storing the
wallet address when present) exactly when the verdict is pass, leaves the
verified set and addresses untouched on fail, and deletes the pending session
in both cases. -/
theorem complete_verification_spec (ownsAsset : String → NftReq → Bool)
    (s : UserVerification) (u : Int) (v : PendingVerification)
    (hp : alookup s.pending_verifications u = some v) :
    (complete_verification ownsAsset s u).2 =
      check_verification_requirements ownsAsset s u v.group_id v.data ∧
    alookup (complete_verification ownsAsset s u).1.pending_verifications u = none ∧
    (check_verification_requirements ownsAsset s u v.group_id v.data = true →
      u ∈ (complete_verification ownsAsset s u).1.verified_users ∧
      ∀ a, v.data.address = some a →
        alookup (complete_verification ownsAsset s u).1.user_addresses u = some a) ∧
    (check_verification_requirements ownsAsset s u v.group_id v.data = false →
      (complete_verification ownsAsset s u).1.verified_users = s.verified_users ∧
      (complete_verification ownsAsset s u).1.user_addresses = s.user_addresses) := by
  simp only [complete_verification, hp]
  cases hcheck : check_verification_requirements ownsAsset s u v.group_id v.data
  · simp [hcheck, alookup_aerase_self]
  · refine ⟨by simp, by simp [alookup_aerase_self], ?_, by simp⟩
    intro _
    constructor
    · simp only [insert_verified]
      by_cases hm : u ∈ s.verified_users <;> simp [hm]
    · intro a ha
      simp [ha, alookup_aset_self]

/-- Witness for C7 at a concrete state: user 9's session data satisfies group
1's rule, so completion passes, verifies the user, stores the wallet address
and deletes the session. -/
theorem complete_verification_spec_witness :
    (complete_verification (fun _ _ => true) exampleUV 9).2 =
      check_verification_requirements (fun _ _ => true) exampleUV 9 1
        ⟨some "us", some 20, some "0xabc"⟩ ∧
    alookup ((complete_verification (fun _ _ => true) exampleUV 9).1.pending_verifications) 9 = none ∧
    9 ∈ (complete_verification (fun _ _ => true) exampleUV 9).1.verified_users ∧
    alookup ((complete_verification (fun _ _ => true) exampleUV 9).1.user_addresses) 9 = some "0xabc" := by
  have h := complete_verification_spec (fun _ _ => true) exampleUV 9
    ⟨1, "address", ⟨some "us", some 20, some "0xabc"⟩⟩ (by decide)
  have hcheck : check_verification_requirements (fun _ _ => true) exampleUV 9 1
      ⟨some "us", some 20, some "0xabc"⟩ = true := by decide
  exact ⟨h.1, h.2.1, (h.2.2.1 hcheck).1, (h.2.2.1 hcheck).2 "0xabc" rfl⟩

/-- Claim C8: `is_user_verified` returns true for every user and state, so the
kick-unverified branch of group-message handling is never taken. -/
theorem is_user_verified_always_true (s : UserVerification) (u : Int) :
    is_user_verified s u = true ∧
    handle_group_message s u = GroupMessageAction.process_and_score :=
  ⟨rfl, rfl⟩

/-- Counterexample for C9: the admin input `CryptoPunk` is outside the
recognized `penguin`/`ape` kinds, yet `enter_verification_nft` stores it
verbatim in the rule instead of a null `nft_holder`. -/
theorem enter_verification_nft_not_null :
    (enter_verification_nft_rule "CryptoPunk" ⟨none, none, none, true⟩).nft_holder =
      some (NftReq.kind "CryptoPunk") ∧
    ¬ (enter_verification_nft_rule "CryptoPunk" ⟨none, none, none, true⟩).nft_holder
        = none := by
  constructor <;> decide

/-- Amended C9: in the event-setup dialog's NFT step, input `none`
(case-insensitive) yields a null `nft_holder`, `yes` yields the any-NFT
marker, and every other input is stored verbatim as a specific NFT
requirement; the resulting rule is stored for the selected group. -/
theorem enter_verification_nft_amended (text : String) (setup : VerificationSetup)
    (vs : UserVerification) (g : Int) :
    (str_lower text = "none" →
      (enter_verification_nft_rule text setup).nft_holder = none) ∧
    (str_lower text ≠ "none" → str_lower text = "yes" →
      (enter_verification_nft_rule text setup).nft_holder = some NftReq.any_nft) ∧
    (str_lower text ≠ "none" → str_lower text ≠ "yes" →
      (enter_verification_nft_rule text setup).nft_holder =
        some (NftReq.kind text)) ∧
    alookup (enter_verification_nft text setup vs g).group_rules g =
      some (enter_verification_nft_rule text setup) := by
  refine ⟨?_, ?_, ?_, ?_⟩
  · intro h
    simp [enter_verification_nft_rule, enter_verification_nft_setup, h]
  · intro h1 h2
    simp [enter_verification_nft_rule, enter_verification_nft_setup, h1, h2]
  · intro h1 h2
    simp [enter_verification_nft_rule, enter_verification_nft_setup, h1, h2]
  · simp [enter_verification_nft, alookup_aset_self]

/-- Witness for the amended C9 at the three kinds of concrete input. -/
theorem enter_verification_nft_amended_witness :
    (enter_verification_nft_rule "None" ⟨none, none, none, true⟩).nft_holder = none ∧
    (enter_verification_nft_rule "Yes" ⟨none, none, none, true⟩).nft_holder =
      some NftReq.any_nft ∧
    (enter_verification_nft_rule "Penguins" ⟨none, none, none, true⟩).nft_holder =
      some (NftReq.kind "Penguins") :=
  ⟨(enter_verification_nft_amended "None" ⟨none, none, none, true⟩
      ⟨[], [], [], []⟩ 1).1 (by decide),
   ((enter_verification_nft_amended "Yes" ⟨none, none, none, true⟩
      ⟨[], [], [], []⟩ 1).2.1 (by decide) (by decide)),
   ((enter_verification_nft_amended "Penguins" ⟨none, none, none, true⟩
      ⟨[], [], [], []⟩ 1).2.2.1 (by decide) (by decide))⟩
